import Mathlib

/-!
Verification development for the snappy-jason JSON navigator
(src-tauri/src: tree.rs, search.rs, node.rs, file.rs).

Rust strings are modelled as lists of unicode scalar values
(Lean Char), documents as an inductive Json value whose objects keep
insertion order (serde_json with preserve_order), and the external
regex engine as a parameter: a compile function returning an optional
matcher, exactly the shape the Rust code threads around
(Option of a compiled Regex).  A Rust panic (byte slicing outside a
char boundary in truncate) is modelled by Option: none means panic.
-/

abbrev Str := List Char

/-- Models Rust char::is_alphanumeric as used by the whole-word split;
exact on the ASCII range exercised by the sources. -/
def isAlphanumChar (c : Char) : Bool :=
  (decide ('0' ≤ c) && decide (c ≤ '9')) ||
  (decide ('a' ≤ c) && decide (c ≤ 'z')) ||
  (decide ('A' ≤ c) && decide (c ≤ 'Z'))

/-- Models Rust char::is_whitespace (used through str::trim);
exact on the ASCII whitespace the sources can meet. -/
def charIsWhitespace (c : Char) : Bool :=
  decide (c.toNat = 32) || decide (c.toNat = 9) || decide (c.toNat = 10) || decide (c.toNat = 13)

/-- query.trim().is_empty() from search.rs: true iff every char is whitespace. -/
def trimIsEmpty (s : Str) : Bool := s.all charIsWhitespace

/-- Models Rust char to-lowercase on the ASCII range (str::to_lowercase
maps A..Z to a..z and leaves other ASCII untouched). -/
def charToLower (c : Char) : Char :=
  if 65 ≤ c.toNat ∧ c.toNat ≤ 90 then Char.ofNat (c.toNat + 32) else c

/-- Models str::to_lowercase from search.rs call sites. -/
def mapToLower (s : Str) : Str := s.map charToLower

/-- needle is a prefix of hay. -/
def strStartsWith : Str → Str → Bool
  | _, [] => true
  | [], _ :: _ => false
  | c :: cs, d :: ds => decide (c = d) && strStartsWith cs ds

/-- Models Rust str::contains (substring containment). -/
def containsSubstr : Str → Str → Bool
  | [], needle => strStartsWith [] needle
  | c :: cs, needle => strStartsWith (c :: cs) needle || containsSubstr cs needle

/-- Models str::split with a non-alphanumeric separator predicate, as in
text_matches (tree.rs) and the inlined matchers of search_stream:
maximal runs between separators, keeping empty pieces. -/
def splitNonAlnum : Str → List Str
  | [] => [[]]
  | c :: cs =>
    if isAlphanumChar c then
      match splitNonAlnum cs with
      | [] => [[c]]
      | w :: ws => (c :: w) :: ws
    else
      [] :: splitNonAlnum cs

/-- Models Rust str::replace with a one-char pattern (escape passes). -/
def replaceChar (pat : Char) (rep : Str) : Str → Str
  | [] => []
  | c :: cs => (if c = pat then rep else [c]) ++ replaceChar pat rep cs

/-- Models Rust str::replace with a two-char pattern, left to right,
non-overlapping (the unescape passes of the JSON-Pointer rule). -/
def replacePair (a b r : Char) : Str → Str
  | [] => []
  | [c] => [c]
  | c :: d :: rest =>
    if c = a ∧ d = b then r :: replacePair a b r rest
    else c :: replacePair a b r (d :: rest)

/-- escape_pointer_token from tree.rs:
raw.replace(tilde, tilde-zero).replace(slash, tilde-one). -/
def escape_pointer_token (raw : Str) : Str :=
  replaceChar '/' ['~', '1'] (replaceChar '~' ['~', '0'] raw)

/-- The standard JSON Pointer token unescape used by serde_json pointer
resolution: replace tilde-one by slash, then tilde-zero by tilde. -/
def unescapeToken (t : Str) : Str :=
  replacePair '~' '0' '~' (replacePair '~' '1' '/' t)

/-- Decimal digit to its character. -/
def digitChar (d : Nat) : Char := Char.ofNat (48 + d)

/-- Digit expansion, most significant first, with structural fuel so the
kernel can evaluate it (fuel at least n suffices). -/
def natToStrAux : Nat → Nat → Str
  | 0, _ => []
  | fuel + 1, n => if n = 0 then [] else natToStrAux fuel (n / 10) ++ [digitChar (n % 10)]

/-- Models the Display form of a Rust usize (plain decimal). -/
def natToStr (n : Nat) : Str :=
  if n = 0 then ['0'] else natToStrAux n n

/-! ## Data model: JSON values, nodes, search results -/

/-- serde_json::Value with object entries in insertion order
(the crate is used with preserve_order).  Numbers are modelled as
integers: every claim under study is insensitive to the float cases
of Number rendering. -/
inductive Json where
  | null : Json
  | bool (b : Bool) : Json
  | num (n : Int) : Json
  | str (s : Str) : Json
  | arr (items : List Json) : Json
  | obj (entries : List (Str × Json)) : Json
deriving Repr

/-- Rendering of a JSON number, Rust Display of i64. -/
def numToStr (n : Int) : Str :=
  if n < 0 then '-' :: natToStr n.natAbs else natToStr n.natAbs

/-- Rendering of a JSON boolean, Rust Display of bool. -/
def boolToStr (b : Bool) : Str := if b then "true".data else "false".data

/-- The Node summary struct (types.rs). -/
structure Node where
  pointer : Str
  key : Option Str
  value_type : Str
  has_children : Bool
  child_count : Nat
  preview : Str
deriving Repr, DecidableEq

/-- SearchResult (types.rs). -/
structure SearchResult where
  node : Node
  match_type : Str
  match_text : Str
  context : Option Str
deriving Repr, DecidableEq

/-- SearchResponse (types.rs). -/
structure SearchResponse where
  results : List SearchResult
  total_count : Nat
  has_more : Bool
deriving Repr, DecidableEq

/-! ## Byte-budget truncation (tree.rs truncate) -/

/-- UTF-8 byte length of a string, Rust str::len. -/
def byteLen (s : Str) : Nat := (s.map Char.utf8Size).sum

/-- Models the Rust byte slice of the first n bytes of a string:
none when byte index n is not on a char boundary (a Rust panic). -/
def takeBytes : Str → Nat → Option Str
  | _, 0 => some []
  | [], _ + 1 => none
  | c :: cs, n + 1 =>
    if c.utf8Size ≤ n + 1 then (takeBytes cs (n + 1 - c.utf8Size)).map (c :: ·)
    else none

/-- truncate from tree.rs: keep the string when its byte length is at
most max, otherwise slice the first max bytes and append an ellipsis.
none models the byte-boundary panic of the slice. -/
def truncate (s : Str) (max : Nat) : Option Str :=
  if byteLen s ≤ max then some s else (takeBytes s max).map (· ++ ['…'])

/-! ## Node construction (tree.rs) -/

/-- Preview text for an object with n entries. -/
def objPreview (entries : List (Str × Json)) : Str :=
  if entries.isEmpty then "\x7b\x7d ".data ++ natToStr entries.length ++ " keys".data
  else "\x7b…\x7d ".data ++ natToStr entries.length ++ " keys".data

/-- Preview text for an array with n items. -/
def arrPreview (items : List Json) : Str :=
  if items.isEmpty then "[] ".data ++ natToStr items.length ++ " items".data
  else "[…] ".data ++ natToStr items.length ++ " items".data

/-- to_node_with_truncation from tree.rs.  Every call site in the
sources passes truncate_limit = None, under which the string preview is
the unmodified string, so the dead limit parameter is omitted and the
construction is total. -/
def to_node_with_truncation (parent_ptr : Str) (key : Option Str) (v : Json) : Node :=
  let (value_type, has_children, child_count, preview) :=
    match v with
    | .obj m => ("object".data, !m.isEmpty, m.length, objPreview m)
    | .arr a => ("array".data, !a.isEmpty, a.length, arrPreview a)
    | .str s => ("string".data, false, 0, s)
    | .num n => ("number".data, false, 0, numToStr n)
    | .bool b => ("boolean".data, false, 0, boolToStr b)
    | .null => ("null".data, false, 0, "null".data)
  let pointer :=
    match key with
    | some k => parent_ptr ++ '/' :: escape_pointer_token k
    | none => parent_ptr
  { pointer := pointer, key := key, value_type := value_type,
    has_children := has_children, child_count := child_count, preview := preview }

/-- str::split on one character, keeping empty pieces. -/
def splitChar (sep : Char) : Str → List Str
  | [] => [[]]
  | c :: cs =>
    if c = sep then [] :: splitChar sep cs
    else
      match splitChar sep cs with
      | [] => [[c]]
      | w :: ws => (c :: w) :: ws

/-- create_node_for_path from tree.rs: like to_node_with_truncation but
string previews go through truncate(s, 120), and the key is recovered as
the last slash-separated piece of the pointer.  none models the panic of
truncate on a bad byte boundary. -/
def create_node_for_path (value : Json) (pointer : Str) : Option Node :=
  let info : Option (Str × Bool × Nat × Str) :=
    match value with
    | .obj m => some ("object".data, !m.isEmpty, m.length, objPreview m)
    | .arr a => some ("array".data, !a.isEmpty, a.length, arrPreview a)
    | .str s => (truncate s 120).map (fun p => ("string".data, false, 0, p))
    | .num n => some ("number".data, false, 0, numToStr n)
    | .bool b => some ("boolean".data, false, 0, boolToStr b)
    | .null => some ("null".data, false, 0, "null".data)
  info.map (fun (value_type, has_children, child_count, preview) =>
    let key := if pointer.isEmpty then none else (splitChar '/' pointer).getLast?
    { pointer := pointer, key := key, value_type := value_type,
      has_children := has_children, child_count := child_count, preview := preview })

/-! ## JSON Pointer resolution (serde_json Value::pointer) -/

/-- serde_json parse_index: rejects a leading plus sign and leading
zeros, then parses plain decimal digits. -/
def parse_index (s : Str) : Option Nat :=
  if s.head? = some '+' then none
  else if s.head? = some '0' ∧ s.length ≠ 1 then none
  else if s ≠ [] ∧ s.all (fun c => decide ('0' ≤ c) && decide (c ≤ '9')) then
    some (s.foldl (fun acc c => acc * 10 + (c.toNat - 48)) 0)
  else none

/-- Lookup in an insertion-ordered object (serde map get). -/
def assocGet (entries : List (Str × Json)) (k : Str) : Option Json :=
  (entries.find? (fun e => e.1 == k)).map (·.2)

/-- One step of pointer resolution (the try_fold body). -/
def resolveStep (target : Json) (token : Str) : Option Json :=
  match target with
  | .obj map => assocGet map token
  | .arr list => (parse_index token).bind (fun i => list.get? i)
  | _ => none

/-- serde_json Value::pointer: empty pointer is the value itself, a
pointer not starting with a slash fails, otherwise the slash-separated
tokens (skipping the leading empty one) are unescaped and folded. -/
def jsonPointer (root : Json) (pointer : Str) : Option Json :=
  if pointer.isEmpty then some root
  else if pointer.head? ≠ some '/' then none
  else
    ((splitChar '/' pointer).drop 1).foldlM
      (fun target tok => resolveStep target (unescapeToken tok)) root

/-! ## Child listing (tree.rs list_children) -/

/-- Number of children of a value (object entries or array items). -/
def numChildren : Json → Nat
  | .obj m => m.length
  | .arr a => a.length
  | _ => 0

/-- The whole child-node sequence of a target value at a pointer, in
insertion (object) or index (array) order. -/
def allChildNodes (target : Json) (pointer : Str) : List Node :=
  match target with
  | .obj map => map.map (fun e => to_node_with_truncation pointer (some e.1) e.2)
  | .arr arr => arr.enum.map (fun iv => to_node_with_truncation pointer (some (natToStr iv.1)) iv.2)
  | _ => []

/-- list_children from tree.rs: resolve the pointer (falling back to the
root), then the offset/limit window of the children, and the empty list
for any scalar target. -/
def list_children (root : Json) (pointer : Str) (offset limit : Nat) : List Node :=
  let target := (jsonPointer root pointer).getD root
  match target with
  | .obj map =>
    ((map.drop offset).take limit).map
      (fun e => to_node_with_truncation pointer (some e.1) e.2)
  | .arr arr =>
    ((arr.enum.drop offset).take limit).map
      (fun iv => to_node_with_truncation pointer (some (natToStr iv.1)) iv.2)
  | _ => []

/-! ## Matching (tree.rs text_matches) and the external regex engine

The regex crate is external: a compiled regex is modelled as a matcher
function, and Regex::new as a compile function returning an optional
matcher, which is exactly the Option the Rust code threads around
(Regex::new(query).ok()). -/

/-- A model of regex compilation: none models an invalid pattern. -/
abbrev RegexCompile := Str → Option (Str → Bool)

/-- text_matches from tree.rs: regex matching when a compiled regex is
present, otherwise whole-word token equality or plain substring
containment. -/
def text_matches (text query : Str) (re : Option (Str → Bool)) (whole_word : Bool) : Bool :=
  match re with
  | some r => r text
  | none =>
    if whole_word then (splitNonAlnum text).any (fun w => w == query)
    else containsSubstr text query

/-- The matcher expression inlined at every match site of search_stream
(search.rs): identical in behaviour to text_matches. -/
def streamMatch (check query_norm : Str) (re : Option (Str → Bool)) (whole_word : Bool) : Bool :=
  match re with
  | some r => r check
  | none =>
    if whole_word then (splitNonAlnum check).any (fun w => w == query_norm)
    else containsSubstr check query_norm

/-! ## Bulk search (search.rs search_recursive / search) -/

/-- Case normalisation of a candidate text. -/
def normCase (case_sensitive : Bool) (s : Str) : Str :=
  if case_sensitive then s else mapToLower s

/-- The child pointer built for an object entry. -/
def childPointerObj (pointer k : Str) : Str :=
  if pointer.isEmpty then '/' :: escape_pointer_token k
  else pointer ++ '/' :: escape_pointer_token k

mutual
/-- search_recursive from search.rs.  The result list is the contents of
the results vector in push order; none models a panic inside
create_node_for_path (string truncation at a bad byte boundary). -/
def search_recursive (value : Json) (current_pointer : Str) (query : Str)
    (re : Option (Str → Bool)) (search_keys search_values search_paths
    case_sensitive whole_word : Bool) : Option (List SearchResult) := do
  let pathResults ←
    if search_paths then
      if text_matches (normCase case_sensitive current_pointer) query re whole_word then
        (create_node_for_path value current_pointer).map
          (fun node => [⟨node, "path".data, current_pointer, none⟩])
      else some []
    else some []
  let rest ←
    match value with
    | .obj map =>
      searchObjEntries map current_pointer query re search_keys search_values
        search_paths case_sensitive whole_word
    | .arr arr =>
      searchArrItems arr 0 current_pointer query re search_keys search_values
        search_paths case_sensitive whole_word
    | _ => some []
  pure (pathResults ++ rest)

/-- The object-entry loop of search_recursive. -/
def searchObjEntries (entries : List (Str × Json)) (current_pointer : Str)
    (query : Str) (re : Option (Str → Bool)) (search_keys search_values
    search_paths case_sensitive whole_word : Bool) : Option (List SearchResult) :=
  match entries with
  | [] => some []
  | (key, val) :: rest => do
    let new_pointer := childPointerObj current_pointer key
    let keyResults :=
      if search_keys ∧ text_matches (normCase case_sensitive key) query re whole_word then
        [⟨to_node_with_truncation current_pointer (some key) val, "key".data, key, none⟩]
      else ([] : List SearchResult)
    let valResults ←
      if search_values then
        match val with
        | .str s =>
          some (if text_matches (normCase case_sensitive s) query re whole_word then
            [⟨to_node_with_truncation current_pointer (some key) val, "value".data, s,
              some ("in key: ".data ++ key)⟩]
          else [])
        | .num n =>
          some (if text_matches (normCase case_sensitive (numToStr n)) query re whole_word then
            [⟨to_node_with_truncation current_pointer (some key) val, "value".data, numToStr n,
              some ("in key: ".data ++ key)⟩]
          else [])
        | .bool b =>
          some (if text_matches (normCase case_sensitive (boolToStr b)) query re whole_word then
            [⟨to_node_with_truncation current_pointer (some key) val, "value".data, boolToStr b,
              some ("in key: ".data ++ key)⟩]
          else [])
        | _ =>
          search_recursive val new_pointer query re search_keys search_values
            search_paths case_sensitive whole_word
      else
        match val with
        | .obj _ | .arr _ =>
          search_recursive val new_pointer query re search_keys search_values
            search_paths case_sensitive whole_word
        | _ => some []
    let tailResults ←
      searchObjEntries rest current_pointer query re search_keys search_values
        search_paths case_sensitive whole_word
    pure (keyResults ++ valResults ++ tailResults)

/-- The array loop of search_recursive: recurse into every item. -/
def searchArrItems (items : List Json) (index : Nat) (current_pointer : Str)
    (query : Str) (re : Option (Str → Bool)) (search_keys search_values
    search_paths case_sensitive whole_word : Bool) : Option (List SearchResult) :=
  match items with
  | [] => some []
  | item :: rest => do
    let new_pointer := current_pointer ++ '/' :: natToStr index
    let itemResults ←
      search_recursive item new_pointer query re search_keys search_values
        search_paths case_sensitive whole_word
    let tailResults ←
      searchArrItems rest (index + 1) current_pointer query re search_keys
        search_values search_paths case_sensitive whole_word
    pure (itemResults ++ tailResults)
end

/-- The bulk search command (search.rs search), after the document has
been loaded: empty-trim query short-circuits, the query is lower-cased
when case-insensitive, the regex is compiled from the original query,
and the collected results are paginated. -/
def search_bulk (compile : RegexCompile) (root : Json) (query : Str)
    (search_keys search_values search_paths case_sensitive regex whole_word : Bool)
    (offset limit : Nat) : Option SearchResponse :=
  if trimIsEmpty query then some ⟨[], 0, false⟩
  else
    let search_query := if case_sensitive then query else mapToLower query
    let re := if regex then compile query else none
    (search_recursive root [] search_query re search_keys search_values search_paths
      case_sensitive whole_word).map
      (fun all =>
        ⟨(all.drop offset).take limit, all.length, decide (offset + limit < all.length)⟩)

/-- Variant following the words of the specification for claim C5: the
query is lower-cased before every comparison in every matching mode, so
the regex too is compiled from the lower-cased query.  Differs from
search_bulk only in the argument of compile. -/
def search_bulk_spec_lowered (compile : RegexCompile) (root : Json) (query : Str)
    (search_keys search_values search_paths case_sensitive regex whole_word : Bool)
    (offset limit : Nat) : Option SearchResponse :=
  if trimIsEmpty query then some ⟨[], 0, false⟩
  else
    let search_query := if case_sensitive then query else mapToLower query
    let re := if regex then compile search_query else none
    (search_recursive root [] search_query re search_keys search_values search_paths
      case_sensitive whole_word).map
      (fun all =>
        ⟨(all.drop offset).take limit, all.length, decide (offset + limit < all.length)⟩)

/-! ## Streaming search (search.rs search_stream)

The Rust loop pops (value, pointer) pairs from a Vec used as a stack,
emits results in bounded batches, pushes composite children, and finally
reports the accumulated total in the search_done event.  Batch flushing
only groups consecutive results (each result enters exactly one batch),
so the terminal total equals the length of the full result sequence
modelled here. -/

/-- Key and value match results produced while iterating the entries of
a popped object, in entry order. -/
def streamObjResults (entries : List (Str × Json)) (pointer query_norm : Str)
    (re : Option (Str → Bool)) (search_keys search_values case_sensitive
    whole_word : Bool) : List SearchResult :=
  match entries with
  | [] => []
  | (k, v) :: rest =>
    (if search_keys ∧ streamMatch (normCase case_sensitive k) query_norm re whole_word then
      [⟨to_node_with_truncation pointer (some k) v, "key".data, k, none⟩]
    else []) ++
    (if search_values then
      match v with
      | .str s =>
        if streamMatch (normCase case_sensitive s) query_norm re whole_word then
          [⟨to_node_with_truncation pointer (some k) v, "value".data, s,
            some ("in key: ".data ++ k)⟩]
        else []
      | .num n =>
        if streamMatch (normCase case_sensitive (numToStr n)) query_norm re whole_word then
          [⟨to_node_with_truncation pointer (some k) v, "value".data, numToStr n,
            some ("in key: ".data ++ k)⟩]
        else []
      | .bool b =>
        if streamMatch (normCase case_sensitive (boolToStr b)) query_norm re whole_word then
          [⟨to_node_with_truncation pointer (some k) v, "value".data, boolToStr b,
            some ("in key: ".data ++ k)⟩]
        else []
      | _ => []
    else []) ++
    streamObjResults rest pointer query_norm re search_keys search_values
      case_sensitive whole_word

/-- Value match results produced while iterating the items of a popped
array: scalar items are value-matched here, unlike in the bulk search. -/
def streamArrResults (items : List Json) (index : Nat) (pointer query_norm : Str)
    (re : Option (Str → Bool)) (search_values case_sensitive whole_word : Bool) :
    List SearchResult :=
  match items with
  | [] => []
  | item :: rest =>
    (if search_values then
      match item with
      | .str s =>
        if streamMatch (normCase case_sensitive s) query_norm re whole_word then
          [⟨to_node_with_truncation pointer (some (natToStr index)) item, "value".data, s,
            some ("in index: ".data ++ natToStr index)⟩]
        else []
      | .num n =>
        if streamMatch (normCase case_sensitive (numToStr n)) query_norm re whole_word then
          [⟨to_node_with_truncation pointer (some (natToStr index)) item, "value".data,
            numToStr n, some ("in index: ".data ++ natToStr index)⟩]
        else []
      | .bool b =>
        if streamMatch (normCase case_sensitive (boolToStr b)) query_norm re whole_word then
          [⟨to_node_with_truncation pointer (some (natToStr index)) item, "value".data,
            boolToStr b, some ("in index: ".data ++ natToStr index)⟩]
        else []
      | _ => []
    else []) ++
    streamArrResults rest (index + 1) pointer query_norm re search_values
      case_sensitive whole_word

/-- The composite children an object pushes onto the stack, in push order. -/
def pushedChildrenObj (pointer : Str) : List (Str × Json) → List (Json × Str)
  | [] => []
  | (k, v) :: rest =>
    (match v with
     | .obj _ | .arr _ => [(v, childPointerObj pointer k)]
     | _ => []) ++ pushedChildrenObj pointer rest

/-- The composite children an array pushes onto the stack, in push order. -/
def pushedChildrenArr (pointer : Str) (index : Nat) : List Json → List (Json × Str)
  | [] => []
  | item :: rest =>
    (match item with
     | .obj _ | .arr _ => [(item, pointer ++ '/' :: natToStr index)]
     | _ => []) ++ pushedChildrenArr pointer (index + 1) rest

mutual
/-- Executable structural size of a JSON value, the termination measure
of the streaming work stack. -/
def jsize : Json → Nat
  | .null => 1
  | .bool _ => 1
  | .num _ => 1
  | .str _ => 1
  | .arr items => 1 + jsizeList items
  | .obj entries => 1 + jsizeEntries entries

/-- Size of a list of JSON values. -/
def jsizeList : List Json → Nat
  | [] => 0
  | j :: rest => 1 + jsize j + jsizeList rest

/-- Size of an object entry list. -/
def jsizeEntries : List (Str × Json) → Nat
  | [] => 0
  | e :: rest => 1 + jsize e.2 + jsizeEntries rest
end

/-- Termination measure of the work stack. -/
def stackWeight (st : List (Json × Str)) : Nat :=
  (st.map (fun e => jsize e.1 + 1)).sum

@[simp] theorem stackWeight_nil : stackWeight [] = 0 := rfl

@[simp] theorem stackWeight_cons (x : Json × Str) (l : List (Json × Str)) :
    stackWeight (x :: l) = jsize x.1 + 1 + stackWeight l := by
  simp [stackWeight]

@[simp] theorem stackWeight_append (a b : List (Json × Str)) :
    stackWeight (a ++ b) = stackWeight a + stackWeight b := by
  simp [stackWeight]

@[simp] theorem stackWeight_reverse (a : List (Json × Str)) :
    stackWeight a.reverse = stackWeight a := by
  simp [stackWeight, List.map_reverse, List.sum_reverse]

theorem pushedChildrenObj_weight (pointer : Str) (entries : List (Str × Json)) :
    stackWeight (pushedChildrenObj pointer entries) ≤ jsizeEntries entries := by
  induction entries with
  | nil => simp [pushedChildrenObj]
  | cons e rest ih =>
    obtain ⟨k, v⟩ := e
    simp only [pushedChildrenObj, stackWeight_append, jsizeEntries]
    cases v <;> simp [jsize] <;> omega

theorem pushedChildrenArr_weight (pointer : Str) (index : Nat) (items : List Json) :
    stackWeight (pushedChildrenArr pointer index items) ≤ jsizeList items := by
  induction items generalizing index with
  | nil => simp [pushedChildrenArr]
  | cons item rest ih =>
    simp only [pushedChildrenArr, stackWeight_append, jsizeList]
    have hle := ih (index + 1)
    cases item <;> simp [jsize] <;> omega

/-- One iteration of the search_stream loop: the results produced for
the popped (value, pointer) pair (path match, then the per-child key and
value matches) and the children pushed onto the stack, in push order.
none models a panic inside create_node_for_path. -/
def streamStep (query_norm : Str) (re : Option (Str → Bool))
    (search_keys search_values search_paths case_sensitive whole_word : Bool)
    (value : Json) (pointer : Str) : Option (List SearchResult) × List (Json × Str) :=
  let pathResults :=
    if search_paths ∧ streamMatch (normCase case_sensitive pointer) query_norm re whole_word then
      (create_node_for_path value pointer).map
        (fun node => [⟨node, "path".data, pointer, none⟩])
    else some []
  let nodeResults :=
    match value with
    | .obj map =>
      streamObjResults map pointer query_norm re search_keys search_values
        case_sensitive whole_word
    | .arr arr =>
      streamArrResults arr 0 pointer query_norm re search_values case_sensitive whole_word
    | _ => []
  let pushed :=
    match value with
    | .obj map => pushedChildrenObj pointer map
    | .arr arr => pushedChildrenArr pointer 0 arr
    | _ => []
  (pathResults.map (· ++ nodeResults), pushed)

theorem streamStep_pushed_weight (query_norm : Str) (re : Option (Str → Bool))
    (sk sv sp cs ww : Bool) (value : Json) (pointer : Str) :
    stackWeight (streamStep query_norm re sk sv sp cs ww value pointer).2 < jsize value + 1 := by
  cases value with
  | obj map =>
    have := pushedChildrenObj_weight pointer map
    simp [streamStep, jsize]
    omega
  | arr arr =>
    have := pushedChildrenArr_weight pointer 0 arr
    simp [streamStep, jsize]
    omega
  | null => simp [streamStep, jsize]
  | bool b => simp [streamStep, jsize]
  | num n => simp [streamStep, jsize]
  | str s => simp [streamStep, jsize]

/-- The work-stack loop of search_stream, with the head of the list as
the top of the stack.  The returned list is the sequence of all results
in emission order; none models a panic inside create_node_for_path. -/
def streamLoop (query_norm : Str) (re : Option (Str → Bool))
    (search_keys search_values search_paths case_sensitive whole_word : Bool) :
    List (Json × Str) → Option (List SearchResult)
  | [] => some []
  | (value, pointer) :: rest =>
    match h : streamStep query_norm re search_keys search_values search_paths
        case_sensitive whole_word value pointer with
    | (none, _) => none
    | (some rs, pushed) =>
      match streamLoop query_norm re search_keys search_values search_paths
          case_sensitive whole_word (pushed.reverse ++ rest) with
      | none => none
      | some more => some (rs ++ more)
termination_by st => stackWeight st
decreasing_by
  simp only [stackWeight_append, stackWeight_reverse, stackWeight_cons]
  have hw := streamStep_pushed_weight query_norm re search_keys search_values
    search_paths case_sensitive whole_word value pointer
  rw [h] at hw
  simp at hw
  omega

/-- The search_stream command (search.rs), after the document check and
non-empty query check: the full emitted result sequence. -/
def search_stream_run (compile : RegexCompile) (root : Json) (query : Str)
    (search_keys search_values search_paths case_sensitive regex whole_word : Bool) :
    Option (List SearchResult) :=
  let query_norm := if case_sensitive then query else mapToLower query
  let re := if regex then compile query else none
  streamLoop query_norm re search_keys search_values search_paths case_sensitive
    whole_word [(root, [])]

/-- The total reported by the terminal search_done event: the batches
partition the result sequence, and total_so_far accumulates their
lengths, so the reported total is the length of the result sequence. -/
def search_stream_total (compile : RegexCompile) (root : Json) (query : Str)
    (search_keys search_values search_paths case_sensitive regex whole_word : Bool) :
    Option Nat :=
  (search_stream_run compile root query search_keys search_values search_paths
    case_sensitive regex whole_word).map List.length


theorem streamLoop_nil (query_norm : Str) (re : Option (Str → Bool))
    (sk sv sp cs ww : Bool) :
    streamLoop query_norm re sk sv sp cs ww [] = some [] := by
  rw [streamLoop]

theorem streamLoop_cons (query_norm : Str) (re : Option (Str → Bool))
    (sk sv sp cs ww : Bool) (value : Json) (pointer : Str) (rest : List (Json × Str)) :
    streamLoop query_norm re sk sv sp cs ww ((value, pointer) :: rest) =
      match streamStep query_norm re sk sv sp cs ww value pointer with
      | (none, _) => none
      | (some rs, pushed) =>
        match streamLoop query_norm re sk sv sp cs ww (pushed.reverse ++ rest) with
        | none => none
        | some more => some (rs ++ more) := by
  rw [streamLoop]
  rcases hstep : streamStep query_norm re sk sv sp cs ww value pointer with ⟨r, pushed⟩
  cases r <;> rfl

/-! ## Progress-tracked loading (file.rs ProgressReader and open_file)

The byte source is an in-memory byte list read through BufReader in
chunks of its 8 KiB capacity; serde_json::from_reader is external and is
modelled as a parse parameter consuming the bytes the reader delivered.
The cancellation flag is modelled by the read-step index at which
cancel_parse flipped it (none: never). -/

/-- A parse_progress event (only the fields the claims mention; the
floating-point percent is readBytes / totalBytes * 100, determined by
the two integer fields carried here). -/
structure ProgressEvent where
  readBytes : Nat
  totalBytes : Nat
  done : Bool
  canceled : Bool
deriving Repr, DecidableEq

/-- BufReader capacity used for one inner read. -/
def readChunk : Nat := 8192

/-- The ProgressReader read loop (file.rs ProgressReader::read, iterated
until a read returns zero bytes): returns the bytes delivered downstream
and the progress events emitted.  A read at a step at which the cancel
flag is set returns zero bytes at once, before touching the inner source
and before any event emission. -/
def readerRun (totalBytes : Nat) (cancelAt : Option Nat) (step readBytes lastEmit : Nat) :
    List Nat → List Nat × List ProgressEvent
  | [] =>
    if (cancelAt.map (fun k => decide (k ≤ step))).getD false then ([], [])
    else ([], [⟨readBytes, totalBytes, true, false⟩])
  | b :: bs =>
    if (cancelAt.map (fun k => decide (k ≤ step))).getD false then ([], [])
    else
      let chunk := (b :: bs).take readChunk
      let rest := (b :: bs).drop readChunk
      let rb := readBytes + chunk.length
      let emit := decide (1048576 ≤ rb - lastEmit)
      let ev : List ProgressEvent := if emit then [⟨rb, totalBytes, false, false⟩] else []
      let next := readerRun totalBytes cancelAt (step + 1) rb (if emit then rb else lastEmit) rest
      (chunk ++ next.1, ev ++ next.2)
termination_by remaining => remaining.length
decreasing_by
  simp [readChunk]
  omega

/-- open_file (file.rs) after the file opened successfully: the bytes
are streamed through the progress reader, the external serde_json parse
(a parameter) consumes exactly the delivered bytes, and only a
successful parse replaces the previously loaded document.  The returned
pair is (document state after the call, result returned to the caller). -/
def open_file_model (parse : List Nat → Except Str Json) (prevDoc : Option Json)
    (data : List Nat) (cancelAt : Option Nat) :
    Option Json × Except Str (List Node) :=
  let delivered := (readerRun data.length cancelAt 0 0 0 data).1
  match parse delivered with
  | .error e => (prevDoc, .error e)
  | .ok root => (some root, .ok (list_children root [] 0 100))

/-! ## Subtree replacement (node.rs set_subtree) -/

/-- Pointer-path replacement mirroring serde_json pointer_mut followed
by an in-place assignment: walk the unescaped tokens and replace the
addressed value; none when the pointer does not resolve. -/
def setTokens (target : Json) (tokens : List Str) (newVal : Json) : Option Json :=
  match tokens with
  | [] => some newVal
  | tok :: rest =>
    match target with
    | .obj map =>
      match assocGet map tok with
      | none => none
      | some child =>
        (setTokens child rest newVal).map (fun c =>
          .obj (map.map (fun e => if e.1 == tok then (e.1, c) else e)))
    | .arr list =>
      match parse_index tok with
      | none => none
      | some i =>
        match list.get? i with
        | none => none
        | some child =>
          (setTokens child rest newVal).map (fun c => .arr (list.set i c))
    | _ => none

/-- The token list of a pointer for mutation (same splitting and
unescaping as jsonPointer); none when the pointer is non-empty and does
not start with a slash. -/
def pointerTokens (pointer : Str) : Option (List Str) :=
  if pointer.isEmpty then some []
  else if pointer.head? ≠ some '/' then none
  else some (((splitChar '/' pointer).drop 1).map unescapeToken)

/-- Pointer mutation entry point (serde_json Value::pointer_mut plus
assignment). -/
def setPointer (root : Json) (pointer : Str) (newVal : Json) : Option Json :=
  (pointerTokens pointer).bind (fun toks => setTokens root toks newVal)

/-- build_node_for_pointer (tree.rs): re-resolve the pointer and build
the display node; the inner none models a create_node_for_path panic. -/
def build_node_for_pointer (root : Json) (pointer : Str) : Except Str (Option Node) :=
  if pointer.isEmpty then .ok (create_node_for_path root pointer)
  else
    match jsonPointer root pointer with
    | none => .error "Invalid pointer".data
    | some v => .ok (create_node_for_path v pointer)

/-- The kind tag of set_subtree (node.rs). -/
def compositeKind : Json → Option Str
  | .obj _ => some "object".data
  | .arr _ => some "array".data
  | _ => none

/-- set_subtree (node.rs), with serde_json::from_str modelled by its
outcome, the parsed argument: parse failure first, then the new value
must be composite, then a loaded document is required, the pointer must
resolve, the current value must be composite of the same kind, and only
then is the subtree replaced (copy-on-write leaves the old document
intact until this point).  Returns the document state after the call and
the result returned to the caller. -/
def set_subtree_model (doc : Option Json) (pointer : Str) (parsed : Except Str Json) :
    Option Json × Except Str (Option Node) :=
  match parsed with
  | .error e => (doc, .error ("Parse error: ".data ++ e))
  | .ok newVal =>
    match compositeKind newVal with
    | none => (doc, .error "Edited subtree must be an object or array".data)
    | some newKind =>
      match doc with
      | none => (doc, .error "No document loaded".data)
      | some root =>
        match jsonPointer root pointer with
        | none => (doc, .error "Invalid pointer".data)
        | some current =>
          match compositeKind current with
          | none => (doc, .error "Current value is not an object or array".data)
          | some existingKind =>
            if existingKind ≠ newKind then
              (doc, .error "Type change not allowed (must remain object/array)".data)
            else
              match setPointer root pointer newVal with
              | none => (doc, .error "Invalid pointer".data)
              | some newRoot => (some newRoot, build_node_for_pointer newRoot pointer)

/-! ## Helper lemmas -/

theorem replaceChar_append (pat : Char) (rep : Str) (a b : Str) :
    replaceChar pat rep (a ++ b) = replaceChar pat rep a ++ replaceChar pat rep b := by
  induction a with
  | nil => rfl
  | cons c cs ih => simp [replaceChar, ih]

theorem escape_cons (c : Char) (s : Str) :
    escape_pointer_token (c :: s) =
      (if c = '~' then ['~', '0'] else if c = '/' then ['~', '1'] else [c]) ++
        escape_pointer_token s := by
  unfold escape_pointer_token
  by_cases h1 : c = '~'
  · subst h1
    simp [replaceChar]
  · by_cases h2 : c = '/'
    · subst h2
      simp [replaceChar]
    · simp [replaceChar, h1, h2]

theorem replacePair_skip (a b r : Char) (c : Char) (t : Str) (hc : c ≠ a) :
    replacePair a b r (c :: t) = c :: replacePair a b r t := by
  cases t with
  | nil => rfl
  | cons d rest => simp [replacePair, hc]

theorem pass1_escape (s : Str) :
    replacePair '~' '1' '/' (escape_pointer_token s) = replaceChar '~' ['~', '0'] s := by
  induction s with
  | nil => rfl
  | cons c cs ih =>
    rw [escape_cons]
    by_cases h1 : c = '~'
    · subst h1
      simp only [if_pos rfl]
      show replacePair '~' '1' '/' ('~' :: '0' :: escape_pointer_token cs) = _
      rw [show replacePair '~' '1' '/' ('~' :: '0' :: escape_pointer_token cs) =
            '~' :: replacePair '~' '1' '/' ('0' :: escape_pointer_token cs) by
          simp [replacePair]]
      rw [replacePair_skip '~' '1' '/' '0' _ (by decide)]
      simp [replaceChar, ih]
    · by_cases h2 : c = '/'
      · subst h2
        simp only [if_neg h1, if_pos rfl]
        show replacePair '~' '1' '/' ('~' :: '1' :: escape_pointer_token cs) = _
        rw [show replacePair '~' '1' '/' ('~' :: '1' :: escape_pointer_token cs) =
              '/' :: replacePair '~' '1' '/' (escape_pointer_token cs) by
            simp [replacePair]]
        simp [replaceChar, ih]
      · simp only [if_neg h1, if_neg h2, List.singleton_append]
        rw [replacePair_skip '~' '1' '/' c _ h1]
        simp [replaceChar, h1, ih]

theorem pass2_unescape (s : Str) :
    replacePair '~' '0' '~' (replaceChar '~' ['~', '0'] s) = s := by
  induction s with
  | nil => rfl
  | cons c cs ih =>
    by_cases h1 : c = '~'
    · subst h1
      show replacePair '~' '0' '~' ('~' :: '0' :: replaceChar '~' ['~', '0'] cs) = _
      simp [replacePair, ih]
    · simp only [replaceChar, if_neg h1, List.singleton_append]
      rw [replacePair_skip '~' '0' '~' c _ h1, ih]

theorem splitNonAlnum_ne_nil (s : Str) : splitNonAlnum s ≠ [] := by
  cases s with
  | nil => simp [splitNonAlnum]
  | cons c cs =>
    simp only [splitNonAlnum]
    by_cases h : isAlphanumChar c
    · simp only [if_pos h]
      cases hs : splitNonAlnum cs <;> simp
    · simp [h]

theorem splitNonAlnum_tokens_alnum (s : Str) :
    ∀ w ∈ splitNonAlnum s, ∀ c ∈ w, isAlphanumChar c = true := by
  induction s with
  | nil =>
    intro w hw c hc
    simp [splitNonAlnum] at hw
    subst hw
    simp at hc
  | cons d ds ih =>
    intro w hw c hc
    simp only [splitNonAlnum] at hw
    by_cases h : isAlphanumChar d
    · rw [if_pos h] at hw
      cases hs : splitNonAlnum ds with
      | nil => exact absurd hs (splitNonAlnum_ne_nil ds)
      | cons w0 ws =>
        rw [hs] at hw
        simp only [List.mem_cons] at hw
        rcases hw with hw | hw
        · subst hw
          rcases List.mem_cons.mp hc with hc0 | hcw
          · subst hc0; exact h
          · exact ih w0 (hs ▸ List.mem_cons_self w0 ws) c hcw
        · exact ih w (hs ▸ List.mem_cons_of_mem w0 hw) c hc
    · rw [if_neg h] at hw
      simp only [List.mem_cons] at hw
      rcases hw with hw | hw
      · subst hw; simp at hc
      · exact ih w hw c hc

theorem charToLower_idem (c : Char) : charToLower (charToLower c) = charToLower c := by
  unfold charToLower
  by_cases h : 65 ≤ c.toNat ∧ c.toNat ≤ 90
  · obtain ⟨h1, h2⟩ := h
    have hv : (Char.ofNat (c.toNat + 32)).toNat = c.toNat + 32 := by
      set n := c.toNat with hn
      interval_cases n <;> decide
    simp only [if_pos (And.intro h1 h2), hv]
    rw [if_neg (by omega)]
  · simp [h]

theorem mapToLower_idem (s : Str) : mapToLower (mapToLower s) = mapToLower s := by
  simp [mapToLower, List.map_map, Function.comp, charToLower_idem]

theorem charIsWhitespace_toLower (c : Char) :
    charIsWhitespace (charToLower c) = charIsWhitespace c := by
  unfold charToLower
  by_cases h : 65 ≤ c.toNat ∧ c.toNat ≤ 90
  · obtain ⟨h1, h2⟩ := h
    have hv : (Char.ofNat (c.toNat + 32)).toNat = c.toNat + 32 := by
      set n := c.toNat with hn
      interval_cases n <;> decide
    simp only [if_pos (And.intro h1 h2), charIsWhitespace, hv]
    have e1 : c.toNat + 32 ≠ 32 := by omega
    have e2 : c.toNat + 32 ≠ 9 := by omega
    have e3 : c.toNat + 32 ≠ 10 := by omega
    have e4 : c.toNat + 32 ≠ 13 := by omega
    have f1 : c.toNat ≠ 32 := by omega
    have f2 : c.toNat ≠ 9 := by omega
    have f3 : c.toNat ≠ 10 := by omega
    have f4 : c.toNat ≠ 13 := by omega
    simp [e1, e2, e3, e4, f1, f2, f3, f4]
  · simp [h]

theorem trimIsEmpty_mapToLower (s : Str) :
    trimIsEmpty (mapToLower s) = trimIsEmpty s := by
  simp [trimIsEmpty, mapToLower, List.all_map, Function.comp]
  induction s with
  | nil => rfl
  | cons c cs ih => simp [List.all_cons, charIsWhitespace_toLower, ih]

theorem natToStrAux_eq_digits (fuel : Nat) :
    ∀ n, n ≤ fuel → natToStrAux fuel n = ((Nat.digits 10 n).reverse).map digitChar := by
  induction fuel with
  | zero =>
    intro n h
    have : n = 0 := Nat.le_zero.mp h
    subst this
    simp [natToStrAux]
  | succ f ih =>
    intro n h
    by_cases hn : n = 0
    · subst hn
      simp [natToStrAux]
    · have hlt : n / 10 < n := Nat.div_lt_self (Nat.pos_of_ne_zero hn) (by omega)
      have hle : n / 10 ≤ f := by omega
      simp only [natToStrAux, if_neg hn]
      rw [ih (n / 10) hle,
        Nat.digits_def' (by omega : (1:Nat) < 10) (Nat.pos_of_ne_zero hn)]
      simp

theorem digitChar_inj (d1 d2 : Nat) (h1 : d1 < 10) (h2 : d2 < 10) :
    digitChar d1 = digitChar d2 → d1 = d2 := by
  interval_cases d1 <;> interval_cases d2 <;> decide

theorem map_digitChar_inj :
    ∀ (l1 l2 : List Nat), (∀ d ∈ l1, d < 10) → (∀ d ∈ l2, d < 10) →
      l1.map digitChar = l2.map digitChar → l1 = l2 := by
  intro l1
  induction l1 with
  | nil =>
    intro l2 _ _ h
    cases l2 with
    | nil => rfl
    | cons d ds => simp at h
  | cons d ds ih =>
    intro l2 hb1 hb2 h
    cases l2 with
    | nil => simp at h
    | cons e es =>
      simp only [List.map_cons, List.cons.injEq] at h
      have hd : d = e :=
        digitChar_inj d e (hb1 d (List.mem_cons_self d ds))
          (hb2 e (List.mem_cons_self e es)) h.1
      have ht : ds = es :=
        ih es (fun x hx => hb1 x (List.mem_cons_of_mem d hx))
          (fun x hx => hb2 x (List.mem_cons_of_mem e hx)) h.2
      rw [hd, ht]

theorem digits_bound (n : Nat) : ∀ d ∈ Nat.digits 10 n, d < 10 := by
  intro d hd
  exact Nat.digits_lt_base (by omega) hd

theorem natToStr_inj (a b : Nat) (h : natToStr a = natToStr b) : a = b := by
  unfold natToStr at h
  by_cases ha : a = 0 <;> by_cases hb : b = 0
  · omega
  · exfalso
    rw [if_pos ha, if_neg hb, natToStrAux_eq_digits b b (le_refl b)] at h
    have hdig : Nat.digits 10 b = [0] := by
      have := map_digitChar_inj [0] ((Nat.digits 10 b).reverse)
        (by intro d hd; simp at hd; omega)
        (by intro d hd; exact digits_bound b d (List.mem_reverse.mp hd))
        (by simpa [digitChar] using h)
      have h2 : (Nat.digits 10 b).reverse = [0] := this.symm
      calc Nat.digits 10 b = (Nat.digits 10 b).reverse.reverse := by simp
        _ = [0] := by rw [h2]; rfl
    have := Nat.ofDigits_digits 10 b
    rw [hdig] at this
    simp [Nat.ofDigits] at this
    omega
  · exfalso
    rw [if_neg ha, if_pos hb, natToStrAux_eq_digits a a (le_refl a)] at h
    have hdig : Nat.digits 10 a = [0] := by
      have := map_digitChar_inj ((Nat.digits 10 a).reverse) [0]
        (by intro d hd; exact digits_bound a d (List.mem_reverse.mp hd))
        (by intro d hd; simp at hd; omega)
        (by simpa [digitChar] using h)
      calc Nat.digits 10 a = (Nat.digits 10 a).reverse.reverse := by simp
        _ = [0] := by rw [this]; rfl
    have := Nat.ofDigits_digits 10 a
    rw [hdig] at this
    simp [Nat.ofDigits] at this
    omega
  · rw [if_neg ha, if_neg hb, natToStrAux_eq_digits a a (le_refl a),
      natToStrAux_eq_digits b b (le_refl b)] at h
    have := map_digitChar_inj ((Nat.digits 10 a).reverse) ((Nat.digits 10 b).reverse)
      (by intro d hd; exact digits_bound a d (List.mem_reverse.mp hd))
      (by intro d hd; exact digits_bound b d (List.mem_reverse.mp hd)) h
    have hdig : Nat.digits 10 a = Nat.digits 10 b := by
      have h2 := congrArg List.reverse this
      simpa using h2
    calc a = Nat.ofDigits 10 (Nat.digits 10 a) := (Nat.ofDigits_digits 10 a).symm
      _ = Nat.ofDigits 10 (Nat.digits 10 b) := by rw [hdig]
      _ = b := Nat.ofDigits_digits 10 b

theorem to_node_key (p : Str) (k : Str) (v : Json) :
    (to_node_with_truncation p (some k) v).key = some k := by
  cases v <;> rfl

theorem list_children_eq_slice (root : Json) (ptr : Str) (off lim : Nat) :
    list_children root ptr off lim =
      ((allChildNodes ((jsonPointer root ptr).getD root) ptr).drop off).take lim := by
  unfold list_children allChildNodes
  cases (jsonPointer root ptr).getD root <;> simp [List.map_take, List.map_drop]

theorem allChildNodes_length (target : Json) (ptr : Str) :
    (allChildNodes target ptr).length = numChildren target := by
  cases target <;> simp [allChildNodes, numChildren]

theorem allChildNodes_nodup (target : Json) (ptr : Str)
    (hk : ∀ es, target = Json.obj es → (es.map Prod.fst).Nodup) :
    (allChildNodes target ptr).Nodup := by
  cases target with
  | obj es =>
    have hnd := hk es rfl
    have hmap : (allChildNodes (Json.obj es) ptr).map Node.key =
        (es.map Prod.fst).map some := by
      simp only [allChildNodes, List.map_map]
      apply List.map_congr_left
      intro e _
      simp [Function.comp, to_node_key]
    have : ((allChildNodes (Json.obj es) ptr).map Node.key).Nodup := by
      rw [hmap]
      exact hnd.map (Option.some_injective _)
    exact this.of_map
  | arr items =>
    have hmap : (allChildNodes (Json.arr items) ptr).map Node.key =
        ((items.enum.map Prod.fst).map natToStr).map some := by
      simp only [allChildNodes, List.map_map]
      apply List.map_congr_left
      intro iv _
      simp [Function.comp, to_node_key]
    have : ((allChildNodes (Json.arr items) ptr).map Node.key).Nodup := by
      rw [hmap, List.enum_map_fst]
      exact (((List.nodup_range _).map (fun a b h => natToStr_inj a b h)).map
        (Option.some_injective _))
    exact this.of_map
  | null => simp [allChildNodes]
  | bool b => simp [allChildNodes]
  | num n => simp [allChildNodes]
  | str s => simp [allChildNodes]

theorem readerRun_nil (total : Nat) (cancelAt : Option Nat) (step rb le : Nat) :
    readerRun total cancelAt step rb le [] =
      if (cancelAt.map (fun k => decide (k ≤ step))).getD false then ([], [])
      else ([], [⟨rb, total, true, false⟩]) := by
  rw [readerRun]

theorem readerRun_cons (total : Nat) (cancelAt : Option Nat) (step rb le : Nat)
    (b : Nat) (bs : List Nat) :
    readerRun total cancelAt step rb le (b :: bs) =
      if (cancelAt.map (fun k => decide (k ≤ step))).getD false then ([], [])
      else
        let chunk := (b :: bs).take readChunk
        let rest := (b :: bs).drop readChunk
        let rb2 := rb + chunk.length
        let emit := decide (1048576 ≤ rb2 - le)
        let ev : List ProgressEvent := if emit then [⟨rb2, total, false, false⟩] else []
        let next := readerRun total cancelAt (step + 1) rb2 (if emit then rb2 else le) rest
        (chunk ++ next.1, ev ++ next.2) := by
  rw [readerRun]

theorem readerRun_delivered_aux (N : Nat) :
    ∀ (data : List Nat), data.length ≤ N → ∀ (total k step rb le : Nat),
      (readerRun total (some k) step rb le data).1 = data.take (readChunk * (k - step)) := by
  induction N with
  | zero =>
    intro data hlen total k step rb le
    have : data = [] := List.eq_nil_of_length_eq_zero (Nat.le_zero.mp hlen)
    subst this
    rw [readerRun_nil]
    by_cases h : k ≤ step <;> simp [h]
  | succ N ih =>
    intro data hlen total k step rb le
    cases data with
    | nil =>
      rw [readerRun_nil]
      by_cases h : k ≤ step <;> simp [h]
    | cons b bs =>
      rw [readerRun_cons]
      by_cases h : k ≤ step
      · simp [h, Nat.sub_eq_zero_of_le h]
      · have hrest : ((b :: bs).drop readChunk).length ≤ N := by
          simp [readChunk] at *
          omega
        rw [if_neg (by simp [h])]
        simp only []
        rw [ih ((b :: bs).drop readChunk) hrest total k (step + 1)]
        have hk : readChunk * (k - step) = readChunk + readChunk * (k - (step + 1)) := by
          have h2 : k - step = (k - (step + 1)) + 1 := by omega
          rw [h2]
          ring
        rw [hk, List.take_add]

/-! ## Claim theorems -/

/-- C9: for every key, including keys containing slash and tilde
characters, escape_pointer_token produces a segment from which the
standard JSON Pointer unescape rule (tilde-one to slash, then tilde-zero
to tilde) recovers exactly the original key. -/
theorem C9_escape_unescape_roundtrip (key : Str) :
    unescapeToken (escape_pointer_token key) = key := by
  unfold unescapeToken
  rw [pass1_escape, pass2_unescape]

/-- C10: whole-word matching with no compiled regex splits the candidate
into maximal alphanumeric tokens, so a query containing a non-alphanumeric
character can never equal a token: both text_matches and the identical
inlined matcher of search_stream return false for every candidate. -/
theorem C10_whole_word_nonalnum_query_no_match (text query : Str)
    (h : ∃ c ∈ query, isAlphanumChar c = false) :
    text_matches text query none true = false ∧
      streamMatch text query none true = false := by
  obtain ⟨c, hc, hcf⟩ := h
  have hany : ((splitNonAlnum text).any (fun w => w == query)) = false := by
    rw [List.any_eq_false]
    intro w hw
    simp only [beq_iff_eq]
    intro heq
    subst heq
    have := splitNonAlnum_tokens_alnum text w hw c hc
    rw [hcf] at this
    exact Bool.false_ne_true this
  constructor <;> simp [text_matches, streamMatch, hany]

theorem C10_witness :
    text_matches "a-b".data "a-b".data none true = false ∧
      streamMatch "a-b".data "a-b".data none true = false :=
  C10_whole_word_nonalnum_query_no_match "a-b".data "a-b".data
    ⟨'-', by decide, by decide⟩

/-- A model of regex-crate compilation used at concrete inputs: the
pattern consisting of a single opening parenthesis is invalid (the regex
crate rejects an unclosed group), and the other patterns exercised here
contain no metacharacters, so their compiled form matches anywhere the
pattern occurs literally. -/
def regexCrateModel : RegexCompile := fun pat =>
  if pat = "(".data then none else some (fun text => containsSubstr text pat)

/-- C5 (amended): with case_sensitive false, every candidate text is
lower-cased in every mode and the query is lower-cased for the substring
and whole-word comparisons, so non-regex searches cannot distinguish a
query from its lower-casing, in bulk and in streaming mode alike; in
regex mode however the pattern is compiled from the original query (see
the counterexample). -/
theorem C5_nonregex_query_case_insensitive (compile : RegexCompile) (root : Json)
    (query : Str) (sk sv sp ww : Bool) (offset limit : Nat) :
    search_bulk compile root query sk sv sp false false ww offset limit =
      search_bulk compile root (mapToLower query) sk sv sp false false ww offset limit ∧
    search_stream_run compile root query sk sv sp false false ww =
      search_stream_run compile root (mapToLower query) sk sv sp false false ww := by
  constructor
  · unfold search_bulk
    rw [trimIsEmpty_mapToLower]
    by_cases h : trimIsEmpty query = true
    · simp [h]
    · simp only [h, Bool.false_eq_true, if_false, if_neg, Bool.not_eq_true, mapToLower_idem]
  · unfold search_stream_run
    simp only [Bool.false_eq_true, if_false, mapToLower_idem]

/-- C5 counterexample: with case_sensitive false and the regex flag set,
the code compiles the original query while the specification text would
compile the lower-cased query; at this input the two disagree (the code
finds nothing, the spec-faithful variant finds the value), so the claim
that the query is lower-cased before comparison in every matching mode
is false of the code. -/
theorem C5_counterexample :
    search_bulk regexCrateModel (Json.obj [("k".data, Json.str "ANN".data)])
        "ANN".data false true false false true false 0 10 ≠
      search_bulk_spec_lowered regexCrateModel
        (Json.obj [("k".data, Json.str "ANN".data)])
        "ANN".data false true false false true false 0 10 := by
  decide

/-- C4 (amended): a query that does not compile as a regex does not make
the search fail, but it is not treated as matching nothing either: the
compiled-regex option is empty, and both the bulk and the streaming
search behave exactly as the same search with the regex flag off, that
is they fall back to whole-word or substring matching. -/
theorem C4_invalid_regex_fallback (compile : RegexCompile) (root : Json) (query : Str)
    (sk sv sp cs ww : Bool) (offset limit : Nat) (h : compile query = none) :
    search_bulk compile root query sk sv sp cs true ww offset limit =
      search_bulk compile root query sk sv sp cs false ww offset limit ∧
    search_stream_run compile root query sk sv sp cs true ww =
      search_stream_run compile root query sk sv sp cs false ww := by
  unfold search_bulk search_stream_run
  rw [h]
  constructor <;> simp

theorem C4_invalid_regex_fallback_witness :
    search_bulk regexCrateModel (Json.obj [("(x".data, Json.num 1)]) "(".data
        true false false true true false 0 10 =
      search_bulk regexCrateModel (Json.obj [("(x".data, Json.num 1)]) "(".data
        true false false true false false 0 10 :=
  (C4_invalid_regex_fallback regexCrateModel (Json.obj [("(x".data, Json.num 1)])
    "(".data true false false true false 0 10 (by rfl)).1

/-- C4 counterexample: the claim says an invalid regex yields zero
matches; on this document the bulk search with the invalid pattern
(an unclosed group) falls back to substring matching and returns one
key match, total_count 1, and the streaming search emits one result. -/
theorem C4_counterexample :
    (search_bulk regexCrateModel (Json.obj [("(x".data, Json.num 1)]) "(".data
        true false false true true false 0 10).map SearchResponse.total_count = some 1 ∧
    search_stream_total regexCrateModel (Json.obj [("(x".data, Json.num 1)]) "(".data
        true false false true true false = some 1 := by
  constructor
  · decide
  · simp only [search_stream_total, search_stream_run]
    rw [streamLoop_cons]
    norm_num [streamStep, streamMatch, streamObjResults, pushedChildrenObj, normCase,
      containsSubstr, strStartsWith, streamLoop_nil, to_node_with_truncation,
      regexCrateModel]

/-- C1: evaluation of both delivery modes at the failing input.  On the
document that is a one-element array holding the string "abc", with
search_values on and every other flag off, the bulk search reports
total_count 0 while the streaming search reports total 1 in its
search_done event: the bulk recursion never value-matches a scalar array
element (its array arm only recurses, and the recursion ignores scalars
at top level), while the streaming loop value-matches it. -/
theorem C1_bulk_stream_totals_diverge :
    (search_bulk regexCrateModel (Json.arr [Json.str "abc".data]) "abc".data
        false true false true false false 0 10).map SearchResponse.total_count = some 0 ∧
    search_stream_total regexCrateModel (Json.arr [Json.str "abc".data]) "abc".data
        false true false true false false = some 1 := by
  constructor
  · decide
  · simp only [search_stream_total, search_stream_run]
    rw [streamLoop_cons]
    norm_num [streamStep, streamMatch, streamArrResults, pushedChildrenArr, normCase,
      containsSubstr, strStartsWith, streamLoop_nil, to_node_with_truncation]

/-- C2: evaluation at the failing input.  On the document that is the
one-element array holding the number 42, with search_values on, the bulk
search returns no result at all, although the claim requires exactly one
result with match_type value for this scalar array element whose text
equals the query. -/
theorem C2_bulk_array_scalar_not_value_matched :
    search_bulk regexCrateModel (Json.arr [Json.num 42]) "42".data
        false true false true false false 0 10 = some ⟨[], 0, false⟩ := by
  decide

set_option maxRecDepth 4000 in
/-- C6: evaluation at the failing input.  The string of 119 letters a
followed by one e-acute has byte length 121, so truncate slices its
first 120 bytes, an index that falls inside the two-byte character:
the slice panics (modelled by none), and node construction for a path
match on such a string value panics with it, refuting totality. -/
theorem C6_truncate_panics_on_multibyte_boundary :
    truncate (List.replicate 119 'a' ++ ['é']) 120 = none ∧
    create_node_for_path (Json.str (List.replicate 119 'a' ++ ['é'])) [] = none := by
  constructor
  · decide
  · decide

/-- C3 (amended): if the cancellation flag becomes true at read step k,
the reader reports end of stream right there without consulting the
source further (exactly the bytes of the first k chunk reads are
delivered downstream), the parse of that truncated prefix fails, the
command returns that parse error, and the previously loaded document is
left unchanged.  The returned failure however is the generic parse error
of the truncated stream, not a distinct cancellation error (see the
counterexample). -/
theorem C3_cancel_fails_and_doc_unchanged (parse : List Nat → Except Str Json)
    (prevDoc : Option Json) (data : List Nat) (k : Nat) (e : Str)
    (hp : parse (data.take (readChunk * k)) = .error e) :
    (readerRun data.length (some k) 0 0 0 data).1 = data.take (readChunk * k) ∧
    open_file_model parse prevDoc data (some k) = (prevDoc, .error e) := by
  have hd := readerRun_delivered_aux data.length data (le_refl _) data.length k 0 0 0
  simp only [Nat.sub_zero] at hd
  refine ⟨hd, ?_⟩
  unfold open_file_model
  rw [hd]
  simp only [hp]

/-- A model of serde_json::from_reader restricted to the byte streams
exercised by the concrete instances below: the complete text of the
array [1] parses, and every other stream (in particular the empty
stream of a canceled or empty source) fails with the EOF parse error. -/
def parseTruncModel : List Nat → Except Str Json := fun bs =>
  if bs = "[1]".data.map Char.toNat then .ok (Json.arr [Json.num 1])
  else .error "EOF while parsing a value at line 1 column 0".data

theorem C3_cancel_witness :
    (readerRun ("[1]".data.map Char.toNat).length (some 0) 0 0 0
        ("[1]".data.map Char.toNat)).1 = [] ∧
    open_file_model parseTruncModel (some (Json.num 7)) ("[1]".data.map Char.toNat)
        (some 0) =
      (some (Json.num 7), .error "EOF while parsing a value at line 1 column 0".data) := by
  have h := C3_cancel_fails_and_doc_unchanged parseTruncModel (some (Json.num 7))
    ("[1]".data.map Char.toNat) 0 "EOF while parsing a value at line 1 column 0".data
    (by rfl)
  simpa using h

/-- C3 counterexample: a load of a well-formed file canceled at the
first read step returns to the caller exactly the same document state
and exactly the same error value as an uncanceled load of an empty
(malformed) file: the failure returned to the caller is not
identifiable as a cancellation. -/
theorem C3_counterexample :
    open_file_model parseTruncModel (some (Json.num 7)) ("[1]".data.map Char.toNat)
        (some 0) =
      open_file_model parseTruncModel (some (Json.num 7)) [] none := by
  have hdata : "[1]".data.map Char.toNat = [91, 49, 93] := by decide
  unfold open_file_model
  rw [hdata, readerRun_cons, readerRun_nil]
  simp [parseTruncModel]

/-- C7: list_children resolves the pointer with fallback to the root and
paginates the children of the resolved target: (i) every window is the
offset/limit slice of the full child-node sequence in insertion or index
order (in particular a scalar target, whose sequence is empty, and any
out-of-range window give the empty list, not an error); (ii) the window
starting at zero with the child count as limit returns exactly that many
nodes; (iii) a window starting at or beyond the child count is empty;
(iv) adjacent windows concatenate to one window, so pagination covers
the children without gap; and (v) when the object keys of the target are
distinct, windows at disjoint offsets share no node, so pagination has
no overlap. -/
theorem C7_list_children_pagination (root : Json) (ptr : Str) :
    (∀ off lim, list_children root ptr off lim =
        ((allChildNodes ((jsonPointer root ptr).getD root) ptr).drop off).take lim) ∧
    (list_children root ptr 0 (numChildren ((jsonPointer root ptr).getD root))).length =
        numChildren ((jsonPointer root ptr).getD root) ∧
    (∀ off lim, numChildren ((jsonPointer root ptr).getD root) ≤ off →
        list_children root ptr off lim = []) ∧
    (∀ off l1 l2, list_children root ptr off l1 ++ list_children root ptr (off + l1) l2 =
        list_children root ptr off (l1 + l2)) ∧
    ((∀ es, (jsonPointer root ptr).getD root = Json.obj es → (es.map Prod.fst).Nodup) →
      ∀ o1 l1 o2 l2, o1 + l1 ≤ o2 → ∀ x, x ∈ list_children root ptr o1 l1 →
        x ∉ list_children root ptr o2 l2) := by
  refine ⟨fun off lim => list_children_eq_slice root ptr off lim, ?_, ?_, ?_, ?_⟩
  · rw [list_children_eq_slice, List.drop_zero, ← allChildNodes_length _ ptr,
      List.take_length]
  · intro off lim hoff
    rw [list_children_eq_slice]
    rw [List.drop_eq_nil_of_le (by rw [allChildNodes_length]; exact hoff)]
    simp
  · intro off l1 l2
    simp only [list_children_eq_slice]
    rw [List.take_add, List.drop_drop]
  · intro hk o1 l1 o2 l2 hle x hx1 hx2
    have hnd := allChildNodes_nodup ((jsonPointer root ptr).getD root) ptr hk
    rw [list_children_eq_slice] at hx1 hx2
    have hx1' : x ∈ (allChildNodes ((jsonPointer root ptr).getD root) ptr).take (o1 + l1) := by
      have heq : ((allChildNodes ((jsonPointer root ptr).getD root) ptr).take (o1 + l1)).drop o1 =
          ((allChildNodes ((jsonPointer root ptr).getD root) ptr).drop o1).take l1 := by
        rw [List.drop_take]
        congr 1
        omega
      rw [← heq] at hx1
      exact List.mem_of_mem_drop hx1
    have hx2' : x ∈ (allChildNodes ((jsonPointer root ptr).getD root) ptr).drop o2 :=
      List.mem_of_mem_take hx2
    exact (List.disjoint_take_drop hnd hle) hx1' hx2'

theorem C7_pagination_witness :
    to_node_with_truncation [] (some "a".data) (Json.num 1) ∈
        list_children (Json.obj [("a".data, Json.num 1), ("b".data, Json.num 2)]) [] 0 1 ∧
    to_node_with_truncation [] (some "a".data) (Json.num 1) ∉
        list_children (Json.obj [("a".data, Json.num 1), ("b".data, Json.num 2)]) [] 1 1 := by
  refine ⟨by decide, ?_⟩
  exact (C7_list_children_pagination
      (Json.obj [("a".data, Json.num 1), ("b".data, Json.num 2)]) []).2.2.2.2
    (by
      intro es hes
      injection hes with h
      subst h
      decide)
    0 1 1 1 (by decide) _ (by decide)

/-- C8: when the pointer resolves to an object and the new JSON text
parses to an array, or the other way round, set_subtree returns the
type-change error and the document (hence the value at the pointer) is
unchanged by the call. -/
theorem C8_set_subtree_rejects_kind_change (root : Json) (pointer : Str)
    (es : List (Str × Json)) (xs : List Json) :
    (jsonPointer root pointer = some (Json.obj es) →
      set_subtree_model (some root) pointer (.ok (Json.arr xs)) =
        (some root, .error "Type change not allowed (must remain object/array)".data)) ∧
    (jsonPointer root pointer = some (Json.arr xs) →
      set_subtree_model (some root) pointer (.ok (Json.obj es)) =
        (some root, .error "Type change not allowed (must remain object/array)".data)) := by
  constructor
  · intro hres
    unfold set_subtree_model
    simp only [compositeKind, hres]
    rw [if_pos (by decide)]
  · intro hres
    unfold set_subtree_model
    simp only [compositeKind, hres]
    rw [if_pos (by decide)]

theorem C8_kind_change_witness :
    set_subtree_model (some (Json.obj [("a".data, Json.obj [("x".data, Json.num 1)])]))
        "/a".data (.ok (Json.arr [Json.num 1, Json.num 2, Json.num 3])) =
      (some (Json.obj [("a".data, Json.obj [("x".data, Json.num 1)])]),
        .error "Type change not allowed (must remain object/array)".data) :=
  (C8_set_subtree_rejects_kind_change
      (Json.obj [("a".data, Json.obj [("x".data, Json.num 1)])]) "/a".data
      [("x".data, Json.num 1)] [Json.num 1, Json.num 2, Json.num 3]).1 rfl
